import Mathlib

/-
Shallow embedding of the topic-limiter bot (src/bot.py).

Modelling conventions:
- Timestamps are integers counting seconds (datetime arithmetic in the source
  works at second granularity; `timedelta(hours=h)` is `h * 3600` seconds).
- JSON dicts become association lists (`alookup` / `aupdate` / `aerase` mirror
  `d.get`, `d[k] = v`, `del d[k]`); dict keys are unique, which we carry as a
  `Nodup` hypothesis where it matters.  String keys `str(user_id)` /
  `str(chat_id)` are modelled by the integer ids themselves (`str` is
  injective on ints, and the code converts consistently on both sides).
- `chat_id: int = None` parameters become `Option Int`; Python truthiness of
  `if chat_id` is `chat_id = some c` with `c ≠ 0`.
- Fallible platform calls (`get_chat_administrators`, `get_chat_member`)
  become a `Transport` argument carrying either the fetched value or a
  transport failure (the `except Exception` branch).
- `is_admin` additionally returns the updated admin cache and the number of
  live platform lookups the call performed (0 or 1), so cache-coherence
  claims can be stated.
-/

namespace TopicLimiter

/-- Telegram anonymous-admin system account id (`GROUP_ANONYMOUS_BOT_ID`). -/
def GROUP_ANONYMOUS_BOT_ID : Int := 1087968824

/-- Association-list lookup, mirroring Python `dict.get(k)` (keys unique). -/
def alookup {κ : Type} {α : Type} [DecidableEq κ] (k : κ) : List (κ × α) → Option α
  | [] => none
  | (k₂, v) :: rest => if k = k₂ then some v else alookup k rest

/-- Association-list store, mirroring Python `d[k] = v`: replaces the value in
place when the key exists, otherwise appends (Python dicts keep insertion
order). -/
def aupdate {κ : Type} {α : Type} [DecidableEq κ] (k : κ) (v : α) : List (κ × α) → List (κ × α)
  | [] => [(k, v)]
  | (k₂, v₂) :: rest => if k = k₂ then (k, v) :: rest else (k₂, v₂) :: aupdate k v rest

/-- Association-list deletion, mirroring Python `del d[k]` on a present key. -/
def aerase {κ : Type} {α : Type} [DecidableEq κ] (k : κ) : List (κ × α) → List (κ × α)
  | [] => []
  | (k₂, v₂) :: rest => if k = k₂ then rest else (k₂, v₂) :: aerase k rest

/-- `message_records.json`: `str(user_id) ↦ iso timestamp` (seconds here). -/
abbrev Records := List (Int × Int)

/-- `user_cooldowns.json`: `str(chat_id) ↦ (str(user_id) ↦ cooldown hours)`. -/
abbrev Cooldowns := List (Int × List (Int × Int))

/-- `custom_admins.json`: `str(chat_id) ↦ list of user ids`. -/
abbrev CustomAdmins := List (Int × List Int)

/-- In-memory `admin_cache`: `str(chat_id) ↦ (admin_ids, timestamp)`. -/
abbrev AdminCache := List (Int × (List Int × Int))

/-- In-memory `recent_warnings`: key `f"{chat_id}:{user_id}"` ↦ timestamp. -/
abbrev RecentWarnings := List ((Int × Int) × Int)

/-- Outcome of a fallible platform call: the value, or a transport failure
(the `except Exception` path at the call site). -/
inductive Transport (α : Type) where
  | ok : α → Transport α
  | failed : Transport α
deriving DecidableEq

/-- `get_user_cooldown_hours(chat_id, user_id)`: per-user override from
`user_cooldowns.json`, defaulting to `MESSAGE_COOLDOWN_HOURS` (parameter
`default`). -/
def get_user_cooldown_hours (default : Int) (cooldowns : Cooldowns)
    (chat_id user_id : Int) : Int :=
  (alookup user_id ((alookup chat_id cooldowns).getD [])).getD default

/-- The inline cooldown choice in `can_user_send_message`:
`get_user_cooldown_hours(chat_id, user_id) if chat_id else
MESSAGE_COOLDOWN_HOURS`.  Python truthiness: `chat_id` is truthy iff it is
neither `None` nor `0`. -/
def cooldownForCall (default : Int) (cooldowns : Cooldowns)
    (chat_id : Option Int) (user_id : Int) : Int :=
  match chat_id with
  | some c => if c ≠ 0 then get_user_cooldown_hours default cooldowns c user_id else default
  | none => default

/-- `can_user_send_message(user_id, records, chat_id)`: returns
`(can_send, time_remaining)`; `time_remaining` in seconds. -/
def can_user_send_message (default : Int) (cooldowns : Cooldowns) (now : Int)
    (user_id : Int) (records : Records) (chat_id : Option Int) :
    Bool × Option Int :=
  match alookup user_id records with
  | none => (true, none)
  | some last_message_time =>
    let cooldown_hours := cooldownForCall default cooldowns chat_id user_id
    if cooldown_hours = 0 then (true, none)
    else
      let time_since_last := now - last_message_time
      if cooldown_hours * 3600 ≤ time_since_last then (true, none)
      else (false, some (cooldown_hours * 3600 - time_since_last))

/-- `clean_old_records(records, chat_id)`: keeps a record iff
`now - timestamp < timedelta(hours=user_cooldown_hours)`, where the per-user
cooldown is looked up in `user_cooldowns.get(str(chat_id), {}) if chat_id
else {}`. -/
def clean_old_records (default : Int) (cooldowns : Cooldowns) (now : Int)
    (records : Records) (chat_id : Option Int) : Records :=
  let chat_cooldowns : List (Int × Int) :=
    match chat_id with
    | some c => if c ≠ 0 then (alookup c cooldowns).getD [] else []
    | none => []
  records.filter fun p =>
    decide (now - p.2 < ((alookup p.1 chat_cooldowns).getD default) * 3600)

/-- Calendar date of a timestamp; abstracts `datetime.date()` as the day
number of the instant. -/
def dateOf (ts : Int) : Int := ts.fdiv 86400

/-- One iteration of the loop body of `check_duplicate_users_today`:
accumulator is `(users_today, duplicates)`. -/
def dupStep (today : Int) : List Int × List Int → Int × Int → List Int × List Int
  | (users_today, duplicates), (user_id, ts) =>
    if dateOf ts = today then
      if user_id ∈ users_today then (users_today, duplicates ++ [user_id])
      else (users_today ++ [user_id], duplicates)
    else (users_today, duplicates)

/-- `check_duplicate_users_today(records)`: users appearing more than once
among records timestamped today. -/
def check_duplicate_users_today (today : Int) (records : Records) : List Int :=
  (records.foldl (dupStep today) ([], [])).2

/-- The store write at the end of `handle_message`:
`records[str(user_id)] = datetime.now().isoformat()`.  Note: keyed by user id
alone, with no chat component. -/
def recordMessage (records : Records) (user_id : Int) (now : Int) : Records :=
  aupdate user_id now records

/-- `is_custom_admin(chat_id, user_id)`: membership in the persisted
per-chat custom-admin list. -/
def is_custom_admin (custom_admins : CustomAdmins) (chat_id user_id : Int) : Bool :=
  decide (user_id ∈ (alookup chat_id custom_admins).getD [])

/-- `is_admin(bot, chat_id, user_id, sender_chat)`.  Returns
`(result, new admin_cache, number of live platform lookups performed)`.
`fetch` is the outcome `bot.get_chat_administrators` would have if called. -/
def is_admin (ttl : Int) (fetch : Transport (List Int))
    (custom_admins : CustomAdmins) (cache : AdminCache)
    (now chat_id user_id : Int) (sender_chat : Option Int) :
    Bool × AdminCache × Nat :=
  if sender_chat = some chat_id then (true, cache, 0)
  else if user_id = GROUP_ANONYMOUS_BOT_ID then (true, cache, 0)
  else if is_custom_admin custom_admins chat_id user_id then (true, cache, 0)
  else
    let fetchBranch : Bool × AdminCache × Nat :=
      match fetch with
      | .ok admin_ids =>
        (decide (user_id ∈ admin_ids), aupdate chat_id (admin_ids, now) cache, 1)
      | .failed => (false, cache, 1)
    match alookup chat_id cache with
    | some cached =>
      if now - cached.2 < ttl then (decide (user_id ∈ cached.1), cache, 0)
      else fetchBranch
    | none => fetchBranch

/-- Chat-member roles returned by `bot.get_chat_member`. -/
inductive ChatMemberStatus where
  | owner
  | administrator
  | member
  | restricted
  | left
  | banned
deriving DecidableEq

/-- `is_group_admin_or_creator(bot, chat_id, user_id)`: asks the platform
directly for the member role; exempts administrator/owner; returns `false`
on transport failure. -/
def is_group_admin_or_creator (fetchMember : Transport ChatMemberStatus) : Bool :=
  match fetchMember with
  | .ok st => decide (st = ChatMemberStatus.administrator ∨ st = ChatMemberStatus.owner)
  | .failed => false

/-- The warning-throttle logic of the rejected path of `handle_message`:
given `recent_warnings`, the `(chat_id, user_id)` key and `now`, decide
whether a warning is sent and produce the updated `recent_warnings`.  A
warning is suppressed when the previous one is younger than
`WARNING_DELETE_SECONDS + 2` seconds (parameter `w` is
`WARNING_DELETE_SECONDS`). -/
def warningStep (w : Int) (recent_warnings : RecentWarnings)
    (chat_id user_id now : Int) : Bool × RecentWarnings :=
  let key := (chat_id, user_id)
  match alookup key recent_warnings with
  | some last_warning_time =>
    if now - last_warning_time < w + 2 then (false, recent_warnings)
    else (true, aupdate key now recent_warnings)
  | none => (true, aupdate key now recent_warnings)

/-- The table mutation performed by `setcooldown_command`: rejects negative
hours (error reply, no write), otherwise writes
`user_cooldowns[chat_id][target_user_id] = cooldown_hours`. -/
def setcooldownUpdate (cooldowns : Cooldowns) (chat_id user_id hours : Int) : Cooldowns :=
  if hours < 0 then cooldowns
  else aupdate chat_id (aupdate user_id hours ((alookup chat_id cooldowns).getD [])) cooldowns

/-- The table mutation performed by `resetcooldown_command`: deletes the
entry when present, otherwise leaves the table unchanged. -/
def resetcooldownUpdate (cooldowns : Cooldowns) (chat_id user_id : Int) : Cooldowns :=
  match alookup chat_id cooldowns with
  | some chat_table =>
    if user_id ∈ chat_table.map Prod.fst then
      aupdate chat_id (aerase user_id chat_table) cooldowns
    else cooldowns
  | none => cooldowns

/-- States of `user_cooldowns.json` reachable from the empty table through
the two mutating commands (`/setcooldown`, `/resetcooldown`). -/
inductive CooldownReachable : Cooldowns → Prop where
  | empty : CooldownReachable []
  | set {t : Cooldowns} (c u h : Int) :
      CooldownReachable t → CooldownReachable (setcooldownUpdate t c u h)
  | reset {t : Cooldowns} (c u : Int) :
      CooldownReachable t → CooldownReachable (resetcooldownUpdate t c u)

/-- Every stored cooldown value in the table is nonnegative. -/
def allNonneg (t : Cooldowns) : Prop :=
  ∀ p ∈ t, ∀ q ∈ p.2, 0 ≤ q.2

section AssocLemmas

variable {κ α : Type} [DecidableEq κ]

theorem alookup_aupdate_self (k : κ) (v : α) (l : List (κ × α)) :
    alookup k (aupdate k v l) = some v := by
  induction l with
  | nil => simp [alookup, aupdate]
  | cons p rest ih =>
    obtain ⟨k₂, v₂⟩ := p
    by_cases h : k = k₂ <;> simp [alookup, aupdate, h, ih]

theorem alookup_aupdate_ne {k₁ k : κ} (v : α) (l : List (κ × α)) (h : k₁ ≠ k) :
    alookup k₁ (aupdate k v l) = alookup k₁ l := by
  induction l with
  | nil => simp [alookup, aupdate, h]
  | cons p rest ih =>
    obtain ⟨k₂, v₂⟩ := p
    by_cases h₂ : k = k₂
    · subst h₂; simp [alookup, aupdate, h]
    · by_cases h₁ : k₁ = k₂ <;> simp [alookup, aupdate, h₁, h₂, ih]

theorem mem_keys_aupdate {a k : κ} (v : α) (l : List (κ × α)) :
    a ∈ (aupdate k v l).map Prod.fst ↔ a = k ∨ a ∈ l.map Prod.fst := by
  induction l with
  | nil => simp [aupdate]
  | cons p rest ih =>
    obtain ⟨k₂, v₂⟩ := p
    by_cases h : k = k₂
    · subst h; simp [aupdate]
    · simp [aupdate, h, ih]; tauto

theorem nodup_aupdate {k : κ} {v : α} {l : List (κ × α)}
    (h : (l.map Prod.fst).Nodup) : ((aupdate k v l).map Prod.fst).Nodup := by
  induction l with
  | nil => simp [aupdate]
  | cons p rest ih =>
    obtain ⟨k₂, v₂⟩ := p
    simp only [List.map_cons, List.nodup_cons] at h
    by_cases hk : k = k₂
    · subst hk; simpa [aupdate] using h
    · simp only [aupdate, if_neg hk, List.map_cons, List.nodup_cons]
      exact ⟨fun hmem => h.1 ((mem_keys_aupdate v rest).mp hmem |>.resolve_left
        fun he => hk he.symm), ih h.2⟩

theorem mem_of_mem_aupdate {k : κ} {v : α} {l : List (κ × α)} {p : κ × α}
    (hp : p ∈ aupdate k v l) : p = (k, v) ∨ p ∈ l := by
  induction l with
  | nil => simpa [aupdate] using hp
  | cons q rest ih =>
    obtain ⟨k₂, v₂⟩ := q
    by_cases h : k = k₂
    · subst h; simp [aupdate] at hp; tauto
    · simp only [aupdate, if_neg h, List.mem_cons] at hp
      rcases hp with hp | hp
      · simp [hp]
      · rcases ih hp with hp | hp <;> simp [hp]

theorem mem_of_mem_aerase {k : κ} {l : List (κ × α)} {p : κ × α}
    (hp : p ∈ aerase k l) : p ∈ l := by
  induction l with
  | nil => simp [aerase] at hp
  | cons q rest ih =>
    obtain ⟨k₂, v₂⟩ := q
    by_cases h : k = k₂
    · simp only [aerase, if_pos h] at hp; simp [hp]
    · simp only [aerase, if_neg h, List.mem_cons] at hp
      rcases hp with hp | hp
      · simp [hp]
      · simp [ih hp]

theorem alookup_mem {k : κ} {v : α} {l : List (κ × α)}
    (h : alookup k l = some v) : (k, v) ∈ l := by
  induction l with
  | nil => simp [alookup] at h
  | cons q rest ih =>
    obtain ⟨k₂, v₂⟩ := q
    by_cases hk : k = k₂
    · simp only [alookup, if_pos hk] at h
      subst hk
      simp [← Option.some_inj.mp h]
    · simp only [alookup, if_neg hk] at h
      simp [ih h]

end AssocLemmas

/-- C1: for every effective cooldown `h > 0` used by the call, a user whose
record was written at time `t` is rejected by `can_user_send_message` at any
`t₂` strictly between `t` and `t + h` hours, with remaining time
`h * 3600 - (t₂ - t)` seconds, and is admitted again at any `t₂ ≥ t + h`
hours (the boundary included). -/
theorem cooldown_window_spec (default : Int) (cooldowns : Cooldowns)
    (u t : Int) (records : Records) (c : Option Int) (h t₂ : Int)
    (hrec : alookup u records = some t)
    (hh : cooldownForCall default cooldowns c u = h) (hpos : 0 < h) :
    (t < t₂ → t₂ < t + h * 3600 →
      can_user_send_message default cooldowns t₂ u records c
        = (false, some (h * 3600 - (t₂ - t)))) ∧
    (t + h * 3600 ≤ t₂ →
      can_user_send_message default cooldowns t₂ u records c = (true, none)) := by
  have hne : ¬ h = 0 := by omega
  constructor
  · intro h1 h2
    simp only [can_user_send_message, hrec, hh]
    rw [if_neg hne, if_neg (by omega)]
  · intro h3
    simp only [can_user_send_message, hrec, hh]
    rw [if_neg hne, if_pos (by omega)]

/-- C1 witness: default 24h cooldown, record written at `t = 0`; at
`t₂ = 3600` the user is rejected with `82800` seconds remaining, at
`t₂ = 86400` (exactly 24h) the user is admitted. -/
theorem cooldown_window_spec_witness :
    can_user_send_message 24 [] 3600 5 [(5, 0)] none = (false, some 82800) ∧
    can_user_send_message 24 [] 86400 5 [(5, 0)] none = (true, none) := by
  constructor
  · rw [(cooldown_window_spec 24 [] 5 0 [(5, 0)] none 24 3600 (by decide)
      (by decide) (by decide)).1 (by decide) (by decide)]
    decide
  · exact (cooldown_window_spec 24 [] 5 0 [(5, 0)] none 24 86400 (by decide)
      (by decide) (by decide)).2 (by decide)

/-- C3 counterexample: for the chat with id `0`, a stored override of `0`
hours is ignored, because the Python guard `if chat_id` treats `0` as falsy:
user 7 has override 0 for chat 0, yet is rejected one hour after their
record. -/
theorem greencard_chat_zero_cex :
    alookup 7 ((alookup 0 ([(0, [(7, 0)])] : Cooldowns)).getD []) = some 0 ∧
    (can_user_send_message 24 [(0, [(7, 0)])] 3600 7 [(7, 0)] (some 0)).1 = false := by
  decide

/-- C3 (amended): for every chat with a nonzero id, a stored cooldown
override of `0` makes `can_user_send_message` return allowed with no
remaining time, for every record store and every current time. -/
theorem greencard_allows (default : Int) (cooldowns : Cooldowns) (now u : Int)
    (records : Records) (c : Int) (hc : c ≠ 0)
    (hov : alookup u ((alookup c cooldowns).getD []) = some 0) :
    can_user_send_message default cooldowns now u records (some c) = (true, none) := by
  unfold can_user_send_message
  cases hrec : alookup u records with
  | none => rfl
  | some last =>
    have h0 : cooldownForCall default cooldowns (some c) u = 0 := by
      simp [cooldownForCall, hc, get_user_cooldown_hours, hov]
    simp [h0]

/-- C3 witness: chat 1, user 7 with override 0 and an existing record from
one hour ago is admitted. -/
theorem greencard_allows_witness :
    can_user_send_message 24 [(1, [(7, 0)])] 3600 7 [(7, 0)] (some 1) = (true, none) :=
  greencard_allows 24 [(1, [(7, 0)])] 3600 7 [(7, 0)] 1 (by decide) (by decide)

/-- C6: with no earlier warning recorded for the `(chat, user)` key, a first
rejection at `t₁` sends a warning; a second rejection at `t₂` within the
suppression window (`WARNING_DELETE_SECONDS + 2` seconds) is suppressed and
leaves the throttle state unchanged; a further rejection at `t₃` after the
window has passed sends a second warning. -/
theorem warning_throttle_spec (w : Int) (rw₀ : RecentWarnings)
    (c u t₁ t₂ t₃ : Int) (h0 : alookup (c, u) rw₀ = none)
    (h12 : t₂ - t₁ < w + 2) (h13 : w + 2 ≤ t₃ - t₁) :
    (warningStep w rw₀ c u t₁).1 = true ∧
    warningStep w (warningStep w rw₀ c u t₁).2 c u t₂
      = (false, (warningStep w rw₀ c u t₁).2) ∧
    (warningStep w (warningStep w rw₀ c u t₁).2 c u t₃).1 = true := by
  have hstep1 : warningStep w rw₀ c u t₁ = (true, aupdate (c, u) t₁ rw₀) := by
    simp [warningStep, h0]
  rw [hstep1]
  refine ⟨rfl, ?_, ?_⟩
  · simp [warningStep, alookup_aupdate_self, h12]
  · simp only [warningStep, alookup_aupdate_self]
    rw [if_neg (by omega)]

/-- C6 witness: warning-visibility duration 10s (window 12s); rejections at
0s, 5s, 12s produce warn, suppress, warn. -/
theorem warning_throttle_spec_witness :
    (warningStep 10 [] 1 2 0).1 = true ∧
    warningStep 10 (warningStep 10 [] 1 2 0).2 1 2 5
      = (false, (warningStep 10 [] 1 2 0).2) ∧
    (warningStep 10 (warningStep 10 [] 1 2 0).2 1 2 12).1 = true :=
  warning_throttle_spec 10 [] 1 2 0 5 12 (by decide) (by decide) (by decide)

/-- Invariant of the loop of `check_duplicate_users_today`: when the
remaining record keys are distinct and disjoint from the already-seen users,
the duplicates accumulator never grows. -/
theorem dupFold_no_new (today : Int) : ∀ (rs : Records) (users dups : List Int),
    (rs.map Prod.fst).Nodup →
    (∀ a ∈ rs.map Prod.fst, a ∉ users) →
    (rs.foldl (dupStep today) (users, dups)).2 = dups := by
  intro rs
  induction rs with
  | nil => intro users dups _ _; rfl
  | cons p rest ih =>
    intro users dups hnd hdisj
    obtain ⟨a, ts⟩ := p
    simp only [List.map_cons, List.nodup_cons] at hnd
    have ha : a ∉ users := hdisj a (by simp)
    simp only [List.foldl_cons]
    by_cases hd : dateOf ts = today
    · rw [show dupStep today (users, dups) (a, ts) = (users ++ [a], dups) by
        simp [dupStep, hd, ha]]
      refine ih (users ++ [a]) dups hnd.2 ?_
      intro b hb
      simp only [List.mem_append, List.mem_singleton]
      rintro (hmem | rfl)
      · exact hdisj b (by simp [hb]) hmem
      · exact hnd.1 hb
    · rw [show dupStep today (users, dups) (a, ts) = (users, dups) by
        simp [dupStep, hd]]
      exact ih users dups hnd.2 fun b hb => hdisj b (by simp [hb])

/-- C10: because a records mapping associates at most one timestamp with
each user key (dict keys are unique), `check_duplicate_users_today` returns
the empty list on every records mapping. -/
theorem duplicates_always_empty (today : Int) (records : Records)
    (hnd : (records.map Prod.fst).Nodup) :
    check_duplicate_users_today today records = [] :=
  dupFold_no_new today records [] [] hnd (by simp)

/-- C10 witness: two distinct users recorded today yield no duplicates. -/
theorem duplicates_always_empty_witness :
    check_duplicate_users_today 0 [(1, 0), (2, 100)] = [] :=
  duplicates_always_empty 0 [(1, 0), (2, 100)] (by decide)

/-- C2 counterexample: the record store is keyed by user id alone, so a
record written while handling chat 1 does affect the same user in chat 2:
user 5 has never posted in chat 2 and would be admitted there, but after the
write performed for chat 1 they are rejected in chat 2. -/
theorem record_cross_chat_cex :
    (can_user_send_message 24 [] 100 5 [] (some 2)).1 = true ∧
    (can_user_send_message 24 [] 100 5 (recordMessage [] 5 0) (some 2)).1 = false := by
  decide

/-- C2 (amended): records are keyed by user id alone, globally across chats:
a write preserves key uniqueness (so at most one record exists per user id,
hence at most one per `(chat, user)`), stores the new timestamp as the one
record for that user — consulted identically in every chat — and leaves
other users' records unchanged. -/
theorem record_keying_global (records : Records) (u ts : Int)
    (hnd : (records.map Prod.fst).Nodup) :
    ((recordMessage records u ts).map Prod.fst).Nodup ∧
    alookup u (recordMessage records u ts) = some ts ∧
    ∀ u₂, u₂ ≠ u → alookup u₂ (recordMessage records u ts) = alookup u₂ records :=
  ⟨nodup_aupdate hnd, alookup_aupdate_self u ts records,
    fun _ h => alookup_aupdate_ne ts records h⟩

/-- C2 witness: writing user 5 into a store holding user 9 keeps keys
unique, stores 100 for user 5 and leaves user 9 untouched. -/
theorem record_keying_global_witness :
    ((recordMessage [(9, 50)] 5 100).map Prod.fst).Nodup ∧
    alookup 5 (recordMessage [(9, 50)] 5 100) = some 100 ∧
    alookup 9 (recordMessage [(9, 50)] 5 100) = some 50 := by
  have h := record_keying_global [(9, 50)] 5 100 (by decide)
  refine ⟨h.1, h.2.1, ?_⟩
  rw [h.2.2 9 (by decide)]
  decide

/-- C4 counterexample: called without a chat id — as `status_command` calls
it — `clean_old_records` ignores the override table: user 7 of chat 1 has a
48h override and only 25h have elapsed, yet the record is pruned. -/
theorem clean_no_chat_cex :
    clean_old_records 24 [(1, [(7, 48)])] 90000 [(7, 0)] none = [] ∧
    (90000 : Int) - 0 < 48 * 3600 := by decide

/-- C4 (amended): with a nonzero chat id, `clean_old_records` keeps exactly
the records whose elapsed time is strictly below that user's own effective
cooldown from that chat's override table (pruning at elapsed ≥ cooldown);
without a chat id, every record is judged against the default cooldown and
overrides are ignored. -/
theorem clean_old_records_spec (default : Int) (cooldowns : Cooldowns)
    (now : Int) (records : Records) :
    (∀ c : Int, c ≠ 0 → ∀ u ts,
      ((u, ts) ∈ clean_old_records default cooldowns now records (some c) ↔
        (u, ts) ∈ records ∧
          now - ts < get_user_cooldown_hours default cooldowns c u * 3600)) ∧
    (∀ u ts,
      ((u, ts) ∈ clean_old_records default cooldowns now records none ↔
        (u, ts) ∈ records ∧ now - ts < default * 3600)) := by
  constructor
  · intro c hc u ts
    simp [clean_old_records, hc, List.mem_filter, get_user_cooldown_hours]
  · intro u ts
    simp [clean_old_records, List.mem_filter, alookup]

/-- C4 witness: at the same instant (25h elapsed for both), same-chat user 7
with a 48h override is retained while default-cooldown user 8 is pruned. -/
theorem clean_old_records_spec_witness :
    (7, 0) ∈ clean_old_records 24 [(1, [(7, 48)])] 90000 [(7, 0), (8, 0)] (some 1) ∧
    (8, 0) ∉ clean_old_records 24 [(1, [(7, 48)])] 90000 [(7, 0), (8, 0)] (some 1) := by
  have h := (clean_old_records_spec 24 [(1, [(7, 48)])] 90000 [(7, 0), (8, 0)]).1
    1 (by decide)
  constructor
  · exact (h 7 0).mpr ⟨by decide, by decide⟩
  · intro hmem
    exact absurd ((h 8 0).mp hmem).2 (by decide)

/-- C5: `is_admin` resolves exemption sources in the fixed order
anonymous-by-sender-identity, anonymous-by-well-known-id, custom list,
cached list, live lookup, returning at the first hit: an anonymous admin is
exempt with no lookup and no cache change regardless of the custom list,
the cache and the transport; a custom admin likewise; a fresh cache entry
answers membership with no lookup; otherwise the live fetch decides,
populating the cache on success. -/
theorem is_admin_resolution_order (ttl : Int) (fetch : Transport (List Int))
    (ca : CustomAdmins) (cache : AdminCache) (now chat u : Int) (sc : Option Int) :
    (sc = some chat ∨ u = GROUP_ANONYMOUS_BOT_ID →
      is_admin ttl fetch ca cache now chat u sc = (true, cache, 0)) ∧
    (sc ≠ some chat → u ≠ GROUP_ANONYMOUS_BOT_ID →
      is_custom_admin ca chat u = true →
      is_admin ttl fetch ca cache now chat u sc = (true, cache, 0)) ∧
    (∀ ids ts, sc ≠ some chat → u ≠ GROUP_ANONYMOUS_BOT_ID →
      is_custom_admin ca chat u = false →
      alookup chat cache = some (ids, ts) → now - ts < ttl →
      is_admin ttl fetch ca cache now chat u sc = (decide (u ∈ ids), cache, 0)) ∧
    (sc ≠ some chat → u ≠ GROUP_ANONYMOUS_BOT_ID →
      is_custom_admin ca chat u = false →
      alookup chat cache = none →
      is_admin ttl fetch ca cache now chat u sc
        = (match fetch with
           | Transport.ok ids => (decide (u ∈ ids), aupdate chat (ids, now) cache, 1)
           | Transport.failed => (false, cache, 1))) := by
  refine ⟨?_, ?_, ?_, ?_⟩
  · rintro (hsc | hu)
    · simp [is_admin, hsc]
    · by_cases hsc : sc = some chat <;> simp [is_admin, hsc, hu]
  · intro hsc hu hca
    simp [is_admin, hsc, hu, hca]
  · intro ids ts hsc hu hca hcache hfresh
    simp [is_admin, hsc, hu, hca, hcache, hfresh]
  · intro hsc hu hca hcache
    cases fetch <;> simp [is_admin, hsc, hu, hca, hcache]

/-- C5 witness: the anonymous-admin well-known id is exempt with no lookup
and no cache change even with a failing transport, a custom-admin list not
containing it and a cache entry not containing it. -/
theorem is_admin_resolution_order_witness :
    is_admin 300 Transport.failed [(1, [2])] [(1, ([], 0))] 10 1
      GROUP_ANONYMOUS_BOT_ID none = (true, [(1, ([], 0))], 0) :=
  (is_admin_resolution_order 300 Transport.failed [(1, [2])] [(1, ([], 0))]
    10 1 GROUP_ANONYMOUS_BOT_ID none).1 (Or.inr rfl)

/-- C8: when the platform transport fails, `is_admin` reaching the live
lookup returns not-exempt and leaves the cache unchanged, and
`is_group_admin_or_creator` denies. -/
theorem fail_closed_spec (ttl : Int) (ca : CustomAdmins) (cache : AdminCache)
    (now chat u : Int) (sc : Option Int)
    (hsc : sc ≠ some chat) (hu : u ≠ GROUP_ANONYMOUS_BOT_ID)
    (hca : is_custom_admin ca chat u = false)
    (hcache : ∀ ids ts, alookup chat cache = some (ids, ts) → ttl ≤ now - ts) :
    (is_admin ttl Transport.failed ca cache now chat u sc).1 = false ∧
    (is_admin ttl Transport.failed ca cache now chat u sc).2.1 = cache ∧
    is_group_admin_or_creator Transport.failed = false := by
  have key : is_admin ttl Transport.failed ca cache now chat u sc
      = (false, cache, 1) := by
    unfold is_admin
    rw [if_neg hsc, if_neg hu, if_neg (by simp [hca])]
    cases hc : alookup chat cache with
    | none => rfl
    | some cached =>
      obtain ⟨ids, ts⟩ := cached
      have hlt : ¬ now - ts < ttl := by have := hcache ids ts hc; omega
      simp [hlt]
  rw [key]
  exact ⟨rfl, rfl, rfl⟩

/-- C8 witness: empty cache, failing transport: `is_admin` denies with the
cache unchanged, and `is_group_admin_or_creator` denies. -/
theorem fail_closed_spec_witness :
    (is_admin 300 Transport.failed [] [] 0 1 2 none).1 = false ∧
    is_group_admin_or_creator Transport.failed = false := by
  have h := fail_closed_spec 300 [] [] 0 1 2 none (by decide) (by decide)
    (by decide) (by intro ids ts hx; simp [alookup] at hx)
  exact ⟨h.1, h.2.2⟩

/-- `setcooldownUpdate` preserves nonnegativity of all stored cooldowns. -/
theorem setcooldown_preserves {t : Cooldowns} {c u h : Int}
    (ht : allNonneg t) : allNonneg (setcooldownUpdate t c u h) := by
  by_cases hneg : h < 0
  · simpa [setcooldownUpdate, hneg] using ht
  · simp only [setcooldownUpdate, if_neg hneg]
    intro p hp q hq
    rcases mem_of_mem_aupdate hp with rfl | hp
    · rcases mem_of_mem_aupdate hq with rfl | hq
      · exact le_of_not_lt hneg
      · cases halo : alookup c t with
        | none => rw [halo] at hq; simp at hq
        | some tbl =>
          rw [halo] at hq
          exact ht (c, tbl) (alookup_mem halo) q hq
    · exact ht p hp q hq

/-- `resetcooldownUpdate` preserves nonnegativity of all stored cooldowns. -/
theorem resetcooldown_preserves {t : Cooldowns} {c u : Int}
    (ht : allNonneg t) : allNonneg (resetcooldownUpdate t c u) := by
  simp only [resetcooldownUpdate]
  cases halo : alookup c t with
  | none => exact ht
  | some tbl =>
    by_cases hmem : u ∈ tbl.map Prod.fst
    · simp only [if_pos hmem]
      intro p hp q hq
      rcases mem_of_mem_aupdate hp with rfl | hp
      · exact ht (c, tbl) (alookup_mem halo) q (mem_of_mem_aerase hq)
      · exact ht p hp q hq
    · simp only [if_neg hmem]; exact ht

/-- C9: `setcooldown` with negative hours leaves the cooldown table
unchanged, and every table state reachable from the empty table through the
mutating cooldown commands stores only nonnegative hours. -/
theorem cooldown_table_nonneg (t : Cooldowns) :
    (∀ c u h, h < 0 → setcooldownUpdate t c u h = t) ∧
    (CooldownReachable t → allNonneg t) := by
  constructor
  · intro c u h hneg
    simp [setcooldownUpdate, hneg]
  · intro hr
    induction hr with
    | empty => intro p hp; simp at hp
    | set c u h _ ih => exact setcooldown_preserves ih
    | reset c u _ ih => exact resetcooldown_preserves ih

/-- C9 witness: a reachable one-entry table rejects a negative update
unchanged and stores only nonnegative hours. -/
theorem cooldown_table_nonneg_witness :
    setcooldownUpdate [(1, [(2, 5)])] 1 2 (-3) = [(1, [(2, 5)])] ∧
    allNonneg [(1, [(2, 5)])] := by
  have h := cooldown_table_nonneg [(1, [(2, 5)])]
  refine ⟨h.1 1 2 (-3) (by decide), h.2 ?_⟩
  have e : ([(1, [(2, 5)])] : Cooldowns) = setcooldownUpdate [] 1 2 5 := by decide
  rw [e]
  exact CooldownReachable.set 1 2 5 CooldownReachable.empty

/-- C7 counterexample: a failed live lookup does not populate the cache, so
a second exemption check only 10s later (well inside the 300s TTL) performs
a second live lookup. -/
theorem admin_cache_two_lookups_cex :
    (is_admin 300 Transport.failed [] [] 0 1 2 none).2.2 = 1 ∧
    (is_admin 300 Transport.failed []
      (is_admin 300 Transport.failed [] [] 0 1 2 none).2.1 10 1 2 none).2.2 = 1 ∧
    (10 : Int) - 0 < 300 := by decide

/-- Any `is_admin` call against a cache holding a fresh entry for the chat
performs no live lookup. -/
theorem is_admin_cache_hit (ttl : Int) (fetch : Transport (List Int))
    (ca : CustomAdmins) (cache : AdminCache) (now chat u : Int)
    (sc : Option Int) (ids : List Int) (ts : Int)
    (hc : alookup chat cache = some (ids, ts)) (hfresh : now - ts < ttl) :
    (is_admin ttl fetch ca cache now chat u sc).2.2 = 0 := by
  unfold is_admin
  by_cases hsc : sc = some chat
  · simp [hsc]
  · by_cases hu : u = GROUP_ANONYMOUS_BOT_ID
    · simp [hsc, hu]
    · by_cases hca : is_custom_admin ca chat u
      · simp [hsc, hu, hca]
      · simp [hsc, hu, hca, hc, hfresh]

/-- An `is_admin` call with a successful fetch that performed a live lookup
leaves the cache holding the fetched list stamped with the call's time. -/
theorem is_admin_ok_lookup_cache (ttl : Int) (ids : List Int)
    (ca : CustomAdmins) (cache : AdminCache) (t₁ chat u₁ : Int) (sc₁ : Option Int)
    (h1 : (is_admin ttl (Transport.ok ids) ca cache t₁ chat u₁ sc₁).2.2 = 1) :
    (is_admin ttl (Transport.ok ids) ca cache t₁ chat u₁ sc₁).2.1
      = aupdate chat (ids, t₁) cache := by
  unfold is_admin at h1 ⊢
  by_cases hsc : sc₁ = some chat
  · simp [hsc] at h1
  · by_cases hu : u₁ = GROUP_ANONYMOUS_BOT_ID
    · simp [hsc, hu] at h1
    · by_cases hca : is_custom_admin ca chat u₁
      · simp [hsc, hu, hca] at h1
      · cases hc : alookup chat cache with
        | none => simp [hsc, hu, hca, hc]
        | some cached =>
          by_cases hfresh : t₁ - cached.2 < ttl
          · simp [hsc, hu, hca, hc, hfresh] at h1
          · simp [hsc, hu, hca, hc, hfresh]

/-- C7 (amended): when a check's live lookup succeeds, any further check for
the same chat within the TTL window performs no live lookup (answered from
the cache or an earlier exemption source); and a check reaching the cache
layer whose entry has outlived the TTL performs exactly one fresh lookup,
replacing the entry with the fetched list stamped `fetched_at = now`.  (A
failed lookup leaves the cache unpopulated, so checks after a failure may
fetch again within the TTL.) -/
theorem admin_cache_coherent (ttl : Int) (ca : CustomAdmins) (chat : Int) :
    (∀ (ids : List Int) (cache : AdminCache) (t₁ t₂ u₁ u₂ : Int)
        (sc₁ sc₂ : Option Int) (fetch₂ : Transport (List Int)),
      (is_admin ttl (Transport.ok ids) ca cache t₁ chat u₁ sc₁).2.2 = 1 →
      t₂ - t₁ < ttl →
      (is_admin ttl fetch₂ ca
        (is_admin ttl (Transport.ok ids) ca cache t₁ chat u₁ sc₁).2.1
        t₂ chat u₂ sc₂).2.2 = 0) ∧
    (∀ (ids₀ ids : List Int) (cache : AdminCache) (ts₀ now u : Int)
        (sc : Option Int),
      sc ≠ some chat → u ≠ GROUP_ANONYMOUS_BOT_ID →
      is_custom_admin ca chat u = false →
      alookup chat cache = some (ids₀, ts₀) → ttl ≤ now - ts₀ →
      is_admin ttl (Transport.ok ids) ca cache now chat u sc
        = (decide (u ∈ ids), aupdate chat (ids, now) cache, 1)) := by
  constructor
  · intro ids cache t₁ t₂ u₁ u₂ sc₁ sc₂ fetch₂ h1 h2
    rw [is_admin_ok_lookup_cache ttl ids ca cache t₁ chat u₁ sc₁ h1]
    exact is_admin_cache_hit ttl fetch₂ ca _ t₂ chat u₂ sc₂ ids t₁
      (alookup_aupdate_self chat (ids, t₁) cache) h2
  · intro ids₀ ids cache ts₀ now u sc hsc hu hca hc hstale
    unfold is_admin
    rw [if_neg hsc, if_neg hu, if_neg (by simp [hca])]
    have hlt : ¬ now - ts₀ < ttl := by omega
    simp [hc, hlt]

/-- C7 witness: after a successful lookup at time 0 populates the cache, a
check 10s later does no lookup; and a check at time 300 against an entry
fetched at time 0 (TTL 300) does one fresh lookup, restamping the entry. -/
theorem admin_cache_coherent_witness :
    (is_admin 300 Transport.failed []
      (is_admin 300 (Transport.ok [2]) [] [] 0 1 2 none).2.1 10 1 3 none).2.2 = 0 ∧
    is_admin 300 (Transport.ok [2]) [] [(1, ([4], 0))] 300 1 3 none
      = (false, [(1, ([2], 300))], 1) := by
  have h := admin_cache_coherent 300 [] 1
  constructor
  · exact h.1 [2] [] 0 10 2 3 none none Transport.failed (by decide) (by decide)
  · rw [h.2 [4] [2] [(1, ([4], 0))] 0 300 3 none (by decide) (by decide)
      (by decide) (by decide) (by decide)]
    decide

end TopicLimiter

